import Mathlib

/-!
Verification of the agentskills-mcp core: skill metadata registry
(`load_skill_metadata_op.py`), skill content loading (`load_skill_op.py`),
reference-file reading (`read_reference_file_op.py`), shell execution
(`run_shell_command_op.py`), and the bounded agent loop
(`tests/skill_agent.py`), shallowly embedded in Lean.
-/

/-! ## String helpers mirroring the Python primitives used by the source -/

/-- Characters stripped by Python's `str.strip()` with no argument
(ASCII whitespace: space, tab, newline, carriage return, vertical tab,
form feed). -/
def isPyWhitespace (c : Char) : Bool :=
  c == ' ' || c == '\t' || c == '\n' || c == '\r' || c == Char.ofNat 11 || c == Char.ofNat 12

/-- Drop trailing characters satisfying `p` (used to model the right half of
Python's `str.strip`). -/
def dropTrailing (p : Char → Bool) (l : List Char) : List Char :=
  (l.reverse.dropWhile p).reverse

/-- Drop leading and trailing characters satisfying `p`: the character-list
core of Python's two-sided `str.strip`. -/
def stripList (p : Char → Bool) (l : List Char) : List Char :=
  dropTrailing p (l.dropWhile p)

/-- Python `s.strip()`: remove leading and trailing whitespace. -/
def pyStrip (s : String) : String :=
  String.mk (stripList isPyWhitespace s.toList)

/-- Python `s.lstrip()`: remove leading whitespace only. -/
def pyLStrip (s : String) : String :=
  String.mk (s.toList.dropWhile isPyWhitespace)

/-- The single-quote character (U+0027), kept as a named constant so source
strings that quote values can be rebuilt verbatim. -/
def squote : String := String.mk [Char.ofNat 39]

/-- A character is one of the two quote characters stripped by the source's
`strip("\"'")` call. -/
def isQuoteChar (c : Char) : Bool :=
  c == '"' || c == Char.ofNat 39

/-- Python `s.strip("\"'")`: remove every leading and trailing quote
character (single or double, in any combination). -/
def stripQuotes (s : String) : String :=
  String.mk (stripList isQuoteChar s.toList)

/-- Fueled worker for `pySplit`.  `acc` holds the current segment's
characters in reverse.  The fuel is instantiated with the input length, which
suffices because every step consumes at least one character when the
separator is nonempty (the only way the source calls it). -/
def pySplitAux (sep : List Char) : Nat → List Char → List Char → List (List Char)
  | _, [], acc => [acc.reverse]
  | 0, l, acc => [acc.reverse ++ l]
  | fuel + 1, c :: rest, acc =>
    if sep.isPrefixOf (c :: rest) then
      acc.reverse :: pySplitAux sep fuel ((c :: rest).drop sep.length) []
    else
      pySplitAux sep fuel rest (c :: acc)

/-- Python `s.split(sep)` for a nonempty separator: split on every
non-overlapping occurrence of `sep`, keeping empty segments. -/
def pySplit (s sep : String) : List String :=
  (pySplitAux sep.toList s.toList.length s.toList []).map String.mk

/-- Join a list of strings with a separator (Python `sep.join(parts)`). -/
def joinSep (sep : String) : List String → String
  | [] => ""
  | [x] => x
  | x :: y :: rest => x ++ sep ++ joinSep sep (y :: rest)

/-- Python `line.split(":", 1)[1]`: the remainder of `line` strictly after
its first colon.  (The source only calls this on lines that are known to
contain a colon; on a colon-free string this model returns `""`.) -/
def afterFirstColon (s : String) : String :=
  joinSep ":" ((pySplit s ":").tail)

/-- Python `s.startswith(pre)`. -/
def strStartsWith (s pre : String) : Bool :=
  pre.toList.isPrefixOf s.toList

/-! ## `LoadSkillMetadataOp.parse_skill_metadata`
(src/mcp_agentskills/core/tools/load_skill_metadata_op.py, lines 100-131) -/

/-- The value extraction applied by `parse_skill_metadata` to a matching
frontmatter line: `line.split(":", 1)[1].strip().strip("\"'")`. -/
def extractFieldValue (line : String) : String :=
  stripQuotes (pyStrip (afterFirstColon line))

/-- One iteration of the frontmatter line scan (lines 114-121 of
`load_skill_metadata_op.py`): strip the line; a `name:` line overwrites the
name accumulator, else a `description:` line overwrites the description
accumulator, else the line is ignored. -/
def parseLine (acc : Option String × Option String) (rawLine : String) :
    Option String × Option String :=
  let line := pyStrip rawLine
  if strStartsWith line "name:" then
    (some (extractFieldValue line), acc.2)
  else if strStartsWith line "description:" then
    (acc.1, some (extractFieldValue line))
  else
    acc

/-- `LoadSkillMetadataOp.parse_skill_metadata`: split the content on `---`;
with fewer than 3 segments return `none` (the Python returns `None` after a
warning); otherwise scan the stripped second segment line by line and return
the `(name, description)` pair, or `none` when either field is missing or
empty (Python's `if not name or not description`). -/
def parse_skill_metadata (content : String) : Option (String × String) :=
  match pySplit content "---" with
  | _ :: fm :: _ :: _ =>
    match (pySplit (pyStrip fm) "\n").foldl parseLine (none, none) with
    | (some n, some d) => if n = "" ∨ d = "" then none else some (n, d)
    | _ => none
  | _ => none

/-! ## `LoadSkillMetadataOp.async_execute`
(src/mcp_agentskills/core/tools/load_skill_metadata_op.py, lines 160-189).
The directory scan itself is filesystem I/O; the operation is modelled on the
list of SKILL.md file contents in scan order. -/

/-- The fixed banner line opening the listing output. -/
def bannerLine : String :=
  "Available skills (each line is \"- <skill_name>: <skill_description>\"):"

/-- The message of the `assert skill_files` failure raised when the scan
finds no SKILL.md file at all. -/
def emptyIndexMessage : String := "No SKILL.md files found in skills directory"

/-- One iteration of the listing loop (lines 172-185): parse the file, and on
success append `"\n- <name>: <description>"` to the accumulated output;
on failure leave the accumulator unchanged. -/
def appendEntry (acc : String) (content : String) : String :=
  match parse_skill_metadata content with
  | some nd => acc ++ "\n- " ++ nd.1 ++ ": " ++ nd.2
  | none => acc

/-- `LoadSkillMetadataOp.async_execute`, on the scanned file contents in scan
order.  An empty scan trips the `assert` (modelled as `Except.error`);
otherwise the banner plus one appended line per parsed skill is returned. -/
def listSkills (contents : List String) : Except String String :=
  match contents with
  | [] => .error emptyIndexMessage
  | _ => .ok (contents.foldl appendEntry bannerLine)

/-- The line contributed to the listing by one accepted skill. -/
def fmtEntry (nd : String × String) : String :=
  "\n- " ++ nd.1 ++ ": " ++ nd.2

/-- The lines contributed by a list of accepted skills, in order. -/
def renderEntries : List (String × String) → String
  | [] => ""
  | nd :: rest => fmtEntry nd ++ renderEntries rest

/-! ## Path resolution and the file-reading operations
(`load_skill_op.py` lines 106-129, `read_reference_file_op.py` lines 112-131).
A path is a list of segments below the filesystem root.  `Path(...).resolve()`
composed with the OS lookup done by `exists()` / `read_text()` collapses `.`,
empty and `..` segments, which `resolveSegments` models (no symlinks).  The
filesystem is an association list from resolved paths to file contents. -/

/-- Resolve one appended segment against an already-resolved path prefix. -/
def resolveStep (acc : List String) (seg : String) : List String :=
  if seg = ".." then acc.dropLast
  else if seg = "." ∨ seg = "" then acc
  else acc ++ [seg]

/-- Resolve a segment sequence (collapsing `..`, `.` and empty segments)
the way the operating system resolves the constructed path. -/
def resolveSegments (segs : List String) : List String :=
  segs.foldl resolveStep []

/-- Look up a resolved path in the modelled filesystem. -/
def lookupFile (fs : List (List String × String)) (p : List String) : Option String :=
  List.lookup p fs

/-- The resolved path of `root / skill_name / "SKILL.md"` built by
`LoadSkillOp.async_execute` (line 116).  `skill_name` may itself contain `/`
separated segments, which `Path./` splits; no validation is applied to it. -/
def skillMdPath (root : List String) (skillName : String) : List String :=
  resolveSegments (root ++ pySplit skillName "/" ++ ["SKILL.md"])

/-- `LoadSkillOp.async_execute`: read `root/skill_name/SKILL.md` and return
its full content; if the file is absent return the not-found diagnostic.
The source performs no frontmatter split on the content it returns. -/
def load_skill (fs : List (List String × String)) (root : List String)
    (skillName : String) : String :=
  match lookupFile fs (skillMdPath root skillName) with
  | none => "❌ Skill " ++ squote ++ skillName ++ squote ++ " not found"
  | some content => content

/-- The resolved path of `root / skill_name / file_name` built by
`ReadReferenceFileOp.async_execute` (line 122); neither argument is
validated. -/
def refFilePath (root : List String) (skillName fileName : String) : List String :=
  resolveSegments (root ++ pySplit skillName "/" ++ pySplit fileName "/")

/-- `ReadReferenceFileOp.async_execute`: read `root/skill_name/file_name`
and return its content, or the not-found diagnostic naming both the file and
the skill. -/
def read_reference_file (fs : List (List String × String)) (root : List String)
    (skillName fileName : String) : String :=
  match lookupFile fs (refFilePath root skillName fileName) with
  | none =>
    "File " ++ squote ++ fileName ++ squote ++ " not found in skill " ++
      squote ++ skillName ++ squote
  | some content => content

/-- The slicing behaviour the spec (§4.2) ascribes to `load_skill`, modelled
from the spec's words for comparison with the source: split on `---`; with at
least 3 segments return the text strictly after the second delimiter trimmed
of leading whitespace, otherwise the whole content. -/
def specLoadSkillSlice (content : String) : String :=
  let parts := pySplit content "---"
  if 3 ≤ parts.length then pyLStrip (joinSep "---" (parts.drop 2))
  else content

/-! ## `RunShellCommandOp.async_execute`
(src/mcp_agentskills/core/tools/run_shell_command_op.py, lines 142-183). -/

/-- The outcome of one finished subprocess: captured standard output and
standard error text plus the exit status the process reported. -/
structure ShellResult where
  stdout : String
  stderr : String
  exitCode : Int
deriving DecidableEq

/-- A shell invocation as issued through `asyncio.create_subprocess_shell`:
the command line, an optional working directory override (`none` means the
subprocess inherits the parent process's current working directory — the
source passes no `cwd`), and the environment given to the subprocess. -/
structure ShellInvocation where
  cmd : String
  cwd : Option String
  env : List (String × String)
deriving DecidableEq

/-- The invocation issued for the primary command (lines 171-176): the
command text verbatim, no working-directory override, and a copy of the
caller's environment (`env=os.environ.copy()`).  `root` and `skillName` are
received by the operation but do not influence this invocation. -/
def primaryInvocation (root skillName command : String)
    (callerEnv : List (String × String)) : ShellInvocation :=
  { cmd := command, cwd := none, env := callerEnv }

/-- The invocation issued for the optional dependency-install stage
(line 157-162): a `cd root/skillName && pipreqs . --force && pip install -r
requirements.txt` command line, again with no working-directory override and
the inherited environment. -/
def installInvocation (root skillName : String)
    (callerEnv : List (String × String)) : ShellInvocation :=
  { cmd := "cd " ++ root ++ "/" ++ skillName ++
      " && pipreqs . --force && pip install -r requirements.txt",
    cwd := none, env := callerEnv }

/-- The directory a shell invocation actually runs in, given the caller's
current working directory. -/
def effectiveCwd (callerCwd : String) (inv : ShellInvocation) : String :=
  inv.cwd.getD callerCwd

/-- Python `"py" in command`: substring containment, modelled through the
splitter (a separator occurs in `s` iff splitting on it yields at least two
segments). -/
def containsPy (command : String) : Bool :=
  2 ≤ (pySplit command "py").length

/-- What one execution of `RunShellCommandOp.async_execute` observably does
besides the subprocesses themselves: the log lines emitted by the
install stage and the output string set as the operation's result. -/
structure OpTrace where
  logs : List String
  output : String
deriving DecidableEq

/-- `RunShellCommandOp.async_execute`, modelled on the results of the (up to
two) subprocesses it spawns.  The install stage (lines 153-169) only logs:
a warning on a non-zero install exit status, an info line otherwise, and an
info line when `pipreqs` is unavailable.  The operation's result (line 181)
is built from the primary command's streams alone:
`stdout.decode().strip() + "\n" + stderr.decode().strip()`. -/
def runShellCommandOp (autoInstallDeps : Bool) (pipreqsAvailable : Bool)
    (command : String) (installResult primaryResult : ShellResult) : OpTrace :=
  let logs :=
    if autoInstallDeps then
      if containsPy command then
        if pipreqsAvailable then
          if installResult.exitCode ≠ 0 then ["warning: failed to install dependencies"]
          else ["info: dependencies installed successfully"]
        else ["info: pipreqs not found, skipping dependency auto-install"]
      else []
    else []
  { logs := logs,
    output := pyStrip primaryResult.stdout ++ "\n" ++ pyStrip primaryResult.stderr }

/-! ## The agent loop (`src/tests/skill_agent.py`, `SkillAgent.run`,
lines 70-162).  The language model and the tool transport are external
collaborators; they are modelled as function parameters.  The model's reply
carries text content and the tool-invocation requests it emits. -/

/-- Message roles of the conversation. -/
inductive Role where
  | SYSTEM
  | USER
  | ASSISTANT
  | TOOL
deriving DecidableEq

/-- A model-issued tool-invocation request: identifier, tool name and an
(opaque) argument payload. -/
structure ToolCallReq where
  id : String
  name : String
  args : String
deriving DecidableEq

/-- One conversation message.  `toolCallId` is set only on TOOL messages and
references the originating request; `toolCalls` is set only on ASSISTANT
messages. -/
structure Message where
  role : Role
  content : String
  toolCallId : Option String := none
  toolCalls : List ToolCallReq := []
deriving DecidableEq

/-- What the chat interface returns for one turn: the assistant's text plus
any tool-invocation requests. -/
structure AssistantReply where
  content : String
  toolCalls : List ToolCallReq
deriving DecidableEq

/-- The ASSISTANT message appended for a model reply. -/
def assistantMessage (r : AssistantReply) : Message :=
  { role := .ASSISTANT, content := r.content, toolCalls := r.toolCalls }

/-- The TOOL message appended after dispatching one known request
(lines 146-160): tagged with the request's id and carrying the transport's
result for that tool name and argument payload. -/
def mkToolMessage (callTool : String → String → String) (tc : ToolCallReq) : Message :=
  { role := .TOOL, content := callTool tc.name tc.args, toolCallId := some tc.id }

/-- Dispatch the requests of one assistant turn strictly in order
(lines 134-160): a request whose name is not registered is skipped with no
message appended; a registered request yields exactly one TOOL message before
the next request is processed. -/
def dispatchAll (toolDict : List String) (callTool : String → String → String) :
    List ToolCallReq → List Message
  | [] => []
  | tc :: rest =>
    if toolDict.contains tc.name then
      mkToolMessage callTool tc :: dispatchAll toolDict callTool rest
    else
      dispatchAll toolDict callTool rest

/-- The `for i in range(max_steps)` loop (lines 115-161): ask the model,
append its ASSISTANT message, stop on the exact sentinel `task_complete`,
otherwise dispatch the turn's requests and continue with the next step; when
the budget runs out the loop simply ends. -/
def agentLoop (llm : List Message → AssistantReply) (toolDict : List String)
    (callTool : String → String → String) :
    Nat → List Message → List Message
  | 0, messages => messages
  | n + 1, messages =>
    let reply := llm messages
    let messages := messages ++ [assistantMessage reply]
    if reply.content = "task_complete" then messages
    else agentLoop llm toolDict callTool n (messages ++ dispatchAll toolDict callTool reply.toolCalls)

/-- The result of one `SkillAgent.run` call: the conversation accumulated in
the local `messages` list, and the value the Python function returns to its
caller.  The source's `run` contains no `return` statement on any path
(sentinel break or budget exhaustion both fall off the end), so the returned
value is `None`. -/
structure RunResult where
  messages : List Message
  ret : Option (List Message)
deriving DecidableEq

/-- `SkillAgent.run`: seed the conversation with the SYSTEM prompt and the
USER query (lines 102-112), run the bounded loop, and return — the Python
function returning `None` while the conversation stays local. -/
def skillAgentRun (llm : List Message → AssistantReply) (toolDict : List String)
    (callTool : String → String → String) (systemPrompt query : String)
    (maxSteps : Nat) : RunResult :=
  let init : List Message :=
    [{ role := .SYSTEM, content := systemPrompt }, { role := .USER, content := query }]
  { messages := agentLoop llm toolDict callTool maxSteps init, ret := none }

/-- Python `s.endswith(suf)`. -/
def strEndsWith (s suf : String) : Bool :=
  suf.toList.isSuffixOf s.toList

/-- The unquoting step as the claim describes it, stated from the spec's
words for comparison with the source: trim exactly one layer of matching
single- or double-quote characters when present; otherwise (unmatched
quotes, inner layers) leave the string unchanged. -/
def claimedOneLayerUnquote (s : String) : String :=
  if 2 ≤ s.toList.length ∧
      ((strStartsWith s "\"" = true ∧ strEndsWith s "\"" = true) ∨
       (strStartsWith s squote = true ∧ strEndsWith s squote = true)) then
    String.mk (s.toList.drop 1).dropLast
  else s

/-- A frontmatter field value wrapped in two layers of single quotes. -/
def doubleQuotedLine : String :=
  "name: " ++ squote ++ squote ++ "x" ++ squote ++ squote

/-- The conversation invariant of C8: every TOOL message originates from a
tool-invocation request whose name is registered, and is exactly the message
the dispatch loop builds for that request. -/
def ToolMsgOk (toolDict : List String) (callTool : String → String → String)
    (msgs : List Message) : Prop :=
  ∀ m ∈ msgs, m.role = Role.TOOL →
    ∃ tc, toolDict.contains tc.name = true ∧ m = mkToolMessage callTool tc

/-! ## Concrete scenarios used by the theorems below -/

/-- A SKILL.md content with valid frontmatter and the body `body`. -/
def skillMdSample : String := "---\nname: pdf\ndescription: d\n---\nbody"

/-- A one-skill filesystem rooted at `skills`. -/
def fsSample : List (List String × String) :=
  [(["skills", "pdf", "SKILL.md"], skillMdSample)]

/-- A filesystem with a skill directory outside the configured `skills`
root, reachable through a parent-directory segment in `skill_name`. -/
def fsEscape : List (List String × String) :=
  [(["other", "SKILL.md"], "secret"), (["other", "notes.md"], "notes")]

/-- A model that immediately answers the termination sentinel. -/
def llmDone : List Message → AssistantReply :=
  fun _ => { content := "task_complete", toolCalls := [] }

/-- A model that never answers the sentinel and requests no tools. -/
def llmIdle : List Message → AssistantReply :=
  fun _ => { content := "thinking", toolCalls := [] }

/-- A model that requests one registered and one unregistered tool. -/
def llmMixed : List Message → AssistantReply :=
  fun _ =>
    { content := "calling tools",
      toolCalls :=
        [{ id := "1", name := "load_skill", args := "pdf" },
         { id := "2", name := "bogus_tool", args := "x" }] }

/-- A concrete tool transport used in the scenarios. -/
def callToolSample : String → String → String :=
  fun n a => "result of " ++ n ++ " on " ++ a

/-- The tool registry of `SkillAgent.run` (lines 120-125). -/
def toolDictSample : List String :=
  ["load_skill_metadata", "load_skill", "read_reference_file", "run_shell_command"]

/-! ## Supporting lemmas -/

/-- The listing fold factors through the parsed skills: starting from any
accumulator it appends exactly the rendered entries of the successfully
parsed contents, in scan order. -/
theorem foldl_appendEntry (cs : List String) (acc : String) :
    cs.foldl appendEntry acc = acc ++ renderEntries (cs.filterMap parse_skill_metadata) := by
  induction cs generalizing acc with
  | nil => simp [renderEntries, String.append_empty]
  | cons c cs ih =>
    rw [List.foldl_cons, List.filterMap_cons]
    cases h : parse_skill_metadata c with
    | none => simp [appendEntry, h, ih]
    | some nd =>
      simp [appendEntry, h, ih, renderEntries, fmtEntry, String.append_assoc]

/-- Everything `takeWhile` keeps satisfies the predicate. -/
theorem takeWhile_all_sat {α : Type} (p : α → Bool) (l : List α) :
    (l.takeWhile p).all p = true := by
  induction l with
  | nil => rfl
  | cons c cs ih =>
    by_cases h : p c = true
    · simp [List.takeWhile_cons, h, ih]
    · simp [List.takeWhile_cons, h]

/-- The head surviving `dropWhile` fails the predicate. -/
theorem dropWhile_head_false {α : Type} (p : α → Bool) (l : List α) (c : α)
    (h : (l.dropWhile p).head? = some c) : p c = false := by
  induction l with
  | nil => simp [List.dropWhile] at h
  | cons a as ih =>
    rw [List.dropWhile_cons] at h
    by_cases hp : p a = true
    · rw [if_pos hp] at h; exact ih h
    · rw [if_neg hp] at h
      rw [List.head?_cons, Option.some.injEq] at h
      subst h
      simpa using hp

/-- Two-sided strip decomposition: the input is a stripped core surrounded
by a prefix and a suffix made entirely of characters satisfying the
predicate, and the core neither starts nor ends with such a character. -/
theorem stripList_decomp (p : Char → Bool) (l : List Char) :
    ∃ pre suf : List Char,
      pre.all p = true ∧ suf.all p = true ∧
      l = pre ++ stripList p l ++ suf ∧
      (stripList p l).head?.all (fun c => !(p c)) = true ∧
      (stripList p l).getLast?.all (fun c => !(p c)) = true := by
  have hm : l.dropWhile p =
      stripList p l ++ ((l.dropWhile p).reverse.takeWhile p).reverse := by
    have h1 := List.takeWhile_append_dropWhile (p := p) (l := (l.dropWhile p).reverse)
    have h2 := congrArg List.reverse h1
    rw [List.reverse_append, List.reverse_reverse] at h2
    exact h2.symm
  refine ⟨l.takeWhile p, ((l.dropWhile p).reverse.takeWhile p).reverse,
    takeWhile_all_sat p l, ?_, ?_, ?_, ?_⟩
  · rw [List.all_reverse]; exact takeWhile_all_sat p (l.dropWhile p).reverse
  · conv_lhs => rw [← List.takeWhile_append_dropWhile (p := p) (l := l), hm]
    rw [List.append_assoc]
  · cases hh : (stripList p l).head? with
    | none => rfl
    | some c =>
      have hmem : (l.dropWhile p).head? = some c := by
        cases hs : stripList p l with
        | nil => rw [hs] at hh; simp at hh
        | cons a t =>
          rw [hs, List.head?_cons, Option.some.injEq] at hh
          rw [hm, hs, List.cons_append, List.head?_cons, hh]
      simpa using dropWhile_head_false p l c hmem
  · cases hh : (stripList p l).getLast? with
    | none => rfl
    | some c =>
      have hrev : ((l.dropWhile p).reverse.dropWhile p).head? = some c := by
        have hsl : stripList p l = ((l.dropWhile p).reverse.dropWhile p).reverse := rfl
        rw [hsl, List.getLast?_reverse] at hh
        exact hh
      simpa using dropWhile_head_false p (l.dropWhile p).reverse c hrev

/-- A line starting with `description:` does not start with `name:`. -/
theorem name_desc_exclusive (s : String) :
    strStartsWith s "description:" = true → strStartsWith s "name:" = true → False := by
  unfold strStartsWith
  intro h1 h2
  have hd : "description:".toList = 'd' :: "escription:".toList := rfl
  have hn : "name:".toList = 'n' :: "ame:".toList := rfl
  rw [hd] at h1
  rw [hn] at h2
  cases hl : s.toList with
  | nil => rw [hl] at h1; simp [List.isPrefixOf] at h1
  | cons c cs =>
    rw [hl] at h1 h2
    simp only [List.isPrefixOf, Bool.and_eq_true, beq_iff_eq] at h1 h2
    exact absurd (h1.1.trans h2.1.symm) (by decide)

/-- The name component written by one scan step. -/
theorem parseLine_fst (acc : Option String × Option String) (l : String) :
    (parseLine acc l).1 =
      if strStartsWith (pyStrip l) "name:" = true then
        some (extractFieldValue (pyStrip l))
      else acc.1 := by
  unfold parseLine
  by_cases h1 : strStartsWith (pyStrip l) "name:" = true
  · simp [h1]
  · by_cases h2 : strStartsWith (pyStrip l) "description:" = true <;> simp [h1, h2]

/-- The description component written by one scan step. -/
theorem parseLine_snd (acc : Option String × Option String) (l : String) :
    (parseLine acc l).2 =
      if strStartsWith (pyStrip l) "description:" = true then
        some (extractFieldValue (pyStrip l))
      else acc.2 := by
  unfold parseLine
  by_cases h2 : strStartsWith (pyStrip l) "description:" = true
  · by_cases h1 : strStartsWith (pyStrip l) "name:" = true
    · exact absurd h1 (fun h1 => name_desc_exclusive _ h2 h1)
    · simp [h1, h2]
  · by_cases h1 : strStartsWith (pyStrip l) "name:" = true <;> simp [h1, h2]

/-- Over the whole scan, the name accumulator holds the value of the last
`name:` line, or the initial value if there is none. -/
theorem foldl_parseLine_fst (ls : List String) (acc : Option String × Option String) :
    (ls.foldl parseLine acc).1 =
      ((ls.filter fun l => strStartsWith (pyStrip l) "name:").getLast?).elim
        acc.1 (fun l => some (extractFieldValue (pyStrip l))) := by
  induction ls generalizing acc with
  | nil => rfl
  | cons l ls ih =>
    rw [List.foldl_cons, ih, List.filter_cons]
    by_cases h : strStartsWith (pyStrip l) "name:" = true
    · rw [if_pos h]
      cases hfl : ls.filter (fun l => strStartsWith (pyStrip l) "name:") with
      | nil => simp [hfl, parseLine_fst, h]
      | cons x xs =>
        have hy : (x :: xs).getLast? = some ((x :: xs).getLast (List.cons_ne_nil x xs)) :=
          List.getLast?_eq_getLast _ _
        simp [hfl, List.getLast?_cons_cons, hy]
    · rw [if_neg h]
      cases hfl : (ls.filter fun l => strStartsWith (pyStrip l) "name:").getLast? with
      | none => simp [hfl, parseLine_fst, h]
      | some x => simp [hfl]

/-- Over the whole scan, the description accumulator holds the value of the
last `description:` line, or the initial value if there is none. -/
theorem foldl_parseLine_snd (ls : List String) (acc : Option String × Option String) :
    (ls.foldl parseLine acc).2 =
      ((ls.filter fun l => strStartsWith (pyStrip l) "description:").getLast?).elim
        acc.2 (fun l => some (extractFieldValue (pyStrip l))) := by
  induction ls generalizing acc with
  | nil => rfl
  | cons l ls ih =>
    rw [List.foldl_cons, ih, List.filter_cons]
    by_cases h : strStartsWith (pyStrip l) "description:" = true
    · rw [if_pos h]
      cases hfl : ls.filter (fun l => strStartsWith (pyStrip l) "description:") with
      | nil => simp [hfl, parseLine_snd, h]
      | cons x xs =>
        have hy : (x :: xs).getLast? = some ((x :: xs).getLast (List.cons_ne_nil x xs)) :=
          List.getLast?_eq_getLast _ _
        simp [hfl, List.getLast?_cons_cons, hy]
    · rw [if_neg h]
      cases hfl : (ls.filter fun l => strStartsWith (pyStrip l) "description:").getLast? with
      | none => simp [hfl, parseLine_snd, h]
      | some x => simp [hfl]

/-- The dispatch loop keeps exactly the registered requests, in order, one
TOOL message each. -/
theorem dispatchAll_eq_filter_map (toolDict : List String)
    (callTool : String → String → String) (tcs : List ToolCallReq) :
    dispatchAll toolDict callTool tcs =
      (tcs.filter fun tc => toolDict.contains tc.name).map (mkToolMessage callTool) := by
  induction tcs with
  | nil => rfl
  | cons tc rest ih =>
    rw [List.filter_cons]
    by_cases h : tc.name ∈ toolDict <;>
      simp [dispatchAll, h, ih]

/-- Every message produced by the dispatch loop is the TOOL message of a
registered request. -/
theorem mem_dispatchAll (toolDict : List String) (callTool : String → String → String)
    {m : Message} {tcs : List ToolCallReq} (h : m ∈ dispatchAll toolDict callTool tcs) :
    ∃ tc, toolDict.contains tc.name = true ∧ m = mkToolMessage callTool tc := by
  rw [dispatchAll_eq_filter_map] at h
  obtain ⟨tc, htc, rfl⟩ := List.mem_map.mp h
  exact ⟨tc, (List.mem_filter.mp htc).2, rfl⟩

/-- The invariant is preserved by appending two invariant-respecting blocks. -/
theorem toolMsgOk_append (toolDict : List String) (callTool : String → String → String)
    {a b : List Message} (ha : ToolMsgOk toolDict callTool a)
    (hb : ToolMsgOk toolDict callTool b) : ToolMsgOk toolDict callTool (a ++ b) := by
  intro m hm hr
  rcases List.mem_append.mp hm with h | h
  · exact ha m h hr
  · exact hb m h hr

/-- An appended ASSISTANT message never violates the invariant. -/
theorem toolMsgOk_assistant (toolDict : List String) (callTool : String → String → String)
    (r : AssistantReply) : ToolMsgOk toolDict callTool [assistantMessage r] := by
  intro m hm hr
  rw [List.mem_singleton] at hm
  subst hm
  simp [assistantMessage] at hr

/-- The block appended by one dispatch pass satisfies the invariant. -/
theorem toolMsgOk_dispatch (toolDict : List String) (callTool : String → String → String)
    (tcs : List ToolCallReq) : ToolMsgOk toolDict callTool (dispatchAll toolDict callTool tcs) := by
  intro m hm _
  exact mem_dispatchAll toolDict callTool hm

/-- The agent loop preserves the TOOL-message invariant for any model, any
budget and any starting conversation. -/
theorem agentLoop_invariant (llm : List Message → AssistantReply) (toolDict : List String)
    (callTool : String → String → String) :
    ∀ (n : Nat) (msgs : List Message), ToolMsgOk toolDict callTool msgs →
      ToolMsgOk toolDict callTool (agentLoop llm toolDict callTool n msgs) := by
  intro n
  induction n with
  | zero => intro msgs h; exact h
  | succ k ih =>
    intro msgs h
    simp only [agentLoop]
    by_cases hs : (llm msgs).content = "task_complete"
    · rw [if_pos hs]
      exact toolMsgOk_append _ _ h (toolMsgOk_assistant _ _ _)
    · rw [if_neg hs]
      exact ih _ (toolMsgOk_append _ _
        (toolMsgOk_append _ _ h (toolMsgOk_assistant _ _ _))
        (toolMsgOk_dispatch _ _ _))

/-! ## Claim theorems -/

/-- C1: the spec says `load_skill` strips frontmatter (text strictly after
the second `---`, leading whitespace trimmed).  The source's
`LoadSkillOp.async_execute` sets the raw file content as the output with no
split: on a skill with frontmatter the returned string is the whole file,
frontmatter included, and differs from the slice the spec describes. -/
theorem load_skill_returns_raw_content :
    load_skill fsSample ["skills"] "pdf" = skillMdSample ∧
    specLoadSkillSlice skillMdSample = "body" ∧
    skillMdSample ≠ "body" :=
  ⟨rfl, rfl, by decide⟩

/-- C2: the spec says the primary command of `run_shell_command` executes
with working directory `root/skill_name`.  The source spawns the command
with no `cwd` and no `cd` prefix, so it runs in the caller's current working
directory; only the environment is inherited verbatim as claimed. -/
theorem run_shell_primary_cwd_is_callers :
    effectiveCwd "/home/user"
        (primaryInvocation "skills" "pdf-fill" "echo hi" [("PATH", "/usr/bin")]) =
      "/home/user" ∧
    (primaryInvocation "skills" "pdf-fill" "echo hi" [("PATH", "/usr/bin")]).env =
      [("PATH", "/usr/bin")] ∧
    ("/home/user" : String) ≠ "skills" ++ "/" ++ "pdf-fill" :=
  ⟨rfl, rfl, by decide⟩

/-- C3: the spec says both terminal outcomes of an agent run (sentinel and
budget exhaustion) return the full Conversation to the caller.
`SkillAgent.run` has no `return` statement: in a sentinel run the
conversation holds the expected three messages yet the returned value is
`none`, and likewise in a budget-exhausted run. -/
theorem agent_run_returns_none_on_both_terminals :
    (skillAgentRun llmDone toolDictSample callToolSample "sys" "q" 5).ret = none ∧
    (skillAgentRun llmDone toolDictSample callToolSample "sys" "q" 5).messages =
      [{ role := .SYSTEM, content := "sys" }, { role := .USER, content := "q" },
       { role := .ASSISTANT, content := "task_complete" }] ∧
    (skillAgentRun llmIdle toolDictSample callToolSample "sys" "q" 2).ret = none ∧
    (skillAgentRun llmIdle toolDictSample callToolSample "sys" "q" 2).messages.length = 4 :=
  ⟨rfl, rfl, rfl, rfl⟩

/-- C4 counterexample: a root whose only SKILL.md has no usable frontmatter
yields zero valid skill descriptors, yet the listing does not abort — it
returns the bare banner with zero skill entries, contradicting the claim
that an all-invalid scan aborts. -/
theorem listing_with_all_invalid_does_not_abort :
    parse_skill_metadata "plain text without delimiters" = none ∧
    listSkills ["plain text without delimiters"] = .ok bannerLine :=
  ⟨rfl, rfl⟩

/-- C4 (amended): the listing aborts exactly when the scan finds zero
SKILL.md files; whenever at least one file exists it returns a listing
(banner plus entries), even if every file fails frontmatter parsing. -/
theorem listing_aborts_iff_no_files :
    listSkills [] = .error emptyIndexMessage ∧
    ∀ c cs, ∃ out, listSkills (c :: cs) = .ok out :=
  ⟨rfl, fun _ _ => ⟨_, rfl⟩⟩

/-- C5: the result of `run_shell_command` is always
`trim(stdout) + "\n" + trim(stderr)` of the primary command, for every
auto-install configuration, every install-stage result and every exit
status of the primary command; no exit status reaches the output. -/
theorem run_shell_output_ignores_exit_status
    (autoInstallDeps pipreqsAvailable : Bool) (command : String)
    (installResult : ShellResult) (stdoutText stderrText : String) (code : Int) :
    (runShellCommandOp autoInstallDeps pipreqsAvailable command installResult
        { stdout := stdoutText, stderr := stderrText, exitCode := code }).output =
      pyStrip stdoutText ++ "\n" ++ pyStrip stderrText :=
  rfl

/-- C6: a SKILL.md whose content splits on `---` into fewer than 3 segments
is excluded (the parse yields no metadata and the scan continues), and for
any nonempty scan the listing is the fixed banner followed by exactly one
entry line per accepted skill, in scan order (`filterMap` keeps order and
duplicates: no sorting, no deduplication). -/
theorem listing_banner_entries_in_scan_order :
    (∀ (c : String) (cs : List String),
      listSkills (c :: cs) =
        .ok (bannerLine ++ renderEntries ((c :: cs).filterMap parse_skill_metadata))) ∧
    ∀ s : String, 3 ≤ (pySplit s "---").length ∨ parse_skill_metadata s = none := by
  constructor
  · intro c cs
    show Except.ok ((c :: cs).foldl appendEntry bannerLine) = _
    rw [foldl_appendEntry]
  · intro s
    unfold parse_skill_metadata
    cases h0 : pySplit s "---" with
    | nil => exact Or.inr rfl
    | cons a t =>
      cases t with
      | nil => exact Or.inr rfl
      | cons b u =>
        cases u with
        | nil => exact Or.inr rfl
        | cons e v => exact Or.inl (by simp)

/-- Witness for C6, at a scan containing one valid skill, one invalid file
and a repeat of the valid skill (the duplicate is kept, in scan order). -/
theorem listing_banner_entries_in_scan_order_witness :
    listSkills [skillMdSample, "plain text", skillMdSample] =
      .ok (bannerLine ++
        renderEntries ([skillMdSample, "plain text", skillMdSample].filterMap
          parse_skill_metadata)) :=
  listing_banner_entries_in_scan_order.1 skillMdSample ["plain text", skillMdSample]

/-- C7 counterexample: the claim says exactly one layer of matching quotes
is trimmed, inner layers preserved.  On the frontmatter line
`name: ''x''` the source's `strip("\"'")` yields `x`, while the claimed
one-layer trim yields `'x'`. -/
theorem one_layer_unquote_refuted :
    extractFieldValue doubleQuotedLine = "x" ∧
    claimedOneLayerUnquote (pyStrip (afterFirstColon doubleQuotedLine)) =
      squote ++ "x" ++ squote ∧
    ("x" : String) ≠ squote ++ "x" ++ squote :=
  ⟨rfl, by decide, by decide⟩

/-- C7 (amended): the extracted value is the remainder after the first
colon, whitespace-trimmed, with ALL leading and trailing quote characters
removed (matched or not, however many layers): the trimmed remainder splits
as an all-quote prefix, the value, and an all-quote suffix, and the value
neither starts nor ends with a quote character. -/
theorem quote_strip_characterization (line : String) :
    ∃ pre suf : List Char,
      pre.all isQuoteChar = true ∧ suf.all isQuoteChar = true ∧
      (pyStrip (afterFirstColon line)).toList =
        pre ++ (extractFieldValue line).toList ++ suf ∧
      (extractFieldValue line).toList.head?.all (fun c => !(isQuoteChar c)) = true ∧
      (extractFieldValue line).toList.getLast?.all (fun c => !(isQuoteChar c)) = true := by
  have h := stripList_decomp isQuoteChar (pyStrip (afterFirstColon line)).toList
  have he : (extractFieldValue line).toList =
      stripList isQuoteChar (pyStrip (afterFirstColon line)).toList := rfl
  rw [he]
  exact h

/-- C8: in every agent run, every TOOL message of the final conversation
originates from a request whose name is in the tool registry (an unknown
request is skipped with no TOOL message), and one dispatch pass turns the
turn's requests, in order, into exactly one TOOL message per registered
request tagged with that request's id. -/
theorem tool_messages_only_for_known_tools
    (llm : List Message → AssistantReply) (toolDict : List String)
    (callTool : String → String → String) (systemPrompt query : String) (maxSteps : Nat) :
    ToolMsgOk toolDict callTool
        (skillAgentRun llm toolDict callTool systemPrompt query maxSteps).messages ∧
    ∀ tcs, dispatchAll toolDict callTool tcs =
      (tcs.filter fun tc => toolDict.contains tc.name).map (mkToolMessage callTool) := by
  constructor
  · unfold skillAgentRun
    apply agentLoop_invariant
    intro m hm hr
    simp only [List.mem_cons, List.not_mem_nil, or_false] at hm
    rcases hm with rfl | rfl <;> simp at hr
  · exact dispatchAll_eq_filter_map toolDict callTool

/-- Witness for C8: the mixed request turn (one registered, one unknown
tool) dispatches to exactly one TOOL message, for the registered request. -/
theorem tool_messages_only_for_known_tools_witness :
    dispatchAll toolDictSample callToolSample (llmMixed []).toolCalls =
      [mkToolMessage callToolSample { id := "1", name := "load_skill", args := "pdf" }] := by
  rw [(tool_messages_only_for_known_tools llmMixed toolDictSample callToolSample
    "s" "q" 1).2 (llmMixed []).toolCalls]
  rfl

/-- C9: neither `load_skill` nor `read_reference_file` validates
`skill_name`: whenever the resolved `root/skill_name/...` path has a file,
its content is read and returned — also when that resolved path lies
outside the configured root (as with a `skill_name` containing `..`). -/
theorem path_traversal_not_prevented
    (fs : List (List String × String)) (root : List String)
    (skillName fileName c₁ c₂ : String)
    (h₁ : lookupFile fs (skillMdPath root skillName) = some c₁)
    (h₂ : lookupFile fs (refFilePath root skillName fileName) = some c₂)
    (hesc₁ : root.isPrefixOf (skillMdPath root skillName) = false)
    (hesc₂ : root.isPrefixOf (refFilePath root skillName fileName) = false) :
    load_skill fs root skillName = c₁ ∧
    read_reference_file fs root skillName fileName = c₂ := by
  unfold load_skill read_reference_file
  rw [h₁, h₂]
  exact ⟨rfl, rfl⟩

/-- Witness for C9: with `skill_name = "../other"` both operations return
the contents of files strictly outside the `skills` root. -/
theorem path_traversal_not_prevented_witness :
    load_skill fsEscape ["skills"] "../other" = "secret" ∧
    read_reference_file fsEscape ["skills"] "../other" "notes.md" = "notes" ∧
    List.isPrefixOf ["skills"] (skillMdPath ["skills"] "../other") = false ∧
    List.isPrefixOf ["skills"] (refFilePath ["skills"] "../other" "notes.md") = false := by
  have h := path_traversal_not_prevented fsEscape ["skills"] "../other" "notes.md"
    "secret" "notes" rfl rfl rfl rfl
  exact ⟨h.1, h.2, rfl, rfl⟩

/-- C10: in the frontmatter scan, later `name:` (resp. `description:`)
lines overwrite earlier ones — the accumulator ends at the value of the last
such line — and, end to end, a frontmatter with duplicated fields records
the last occurrences in the skill's metadata. -/
theorem duplicate_fields_last_wins :
    (∀ (ls : List String) (acc : Option String × Option String),
      (ls.foldl parseLine acc).1 =
        ((ls.filter fun l => strStartsWith (pyStrip l) "name:").getLast?).elim
          acc.1 (fun l => some (extractFieldValue (pyStrip l))) ∧
      (ls.foldl parseLine acc).2 =
        ((ls.filter fun l => strStartsWith (pyStrip l) "description:").getLast?).elim
          acc.2 (fun l => some (extractFieldValue (pyStrip l)))) ∧
    parse_skill_metadata
        "---\nname: a\nname: b\ndescription: c\ndescription: d\n---\nx" =
      some ("b", "d") :=
  ⟨fun ls acc => ⟨foldl_parseLine_fst ls acc, foldl_parseLine_snd ls acc⟩, rfl⟩
